import Mathlib

/-!
Verification of the chat orchestration core of the demo-gallo-connect
storefront: the LLM service (session history, order flow, terms-acceptance
interrupt, availability cache, tool-call pipeline), the MCP SDK service
(tool naming), and the provider adapters (tool surfacing).

The TypeScript sources are shallowly embedded: RxJS observables and
promises become explicit state passing plus oracle functions supplied in
an environment record, JavaScript strings become Lean `String` manipulated
through helper functions that model the JavaScript string methods used by
the source (`includes`, `startsWith`, `substring`, `toLowerCase`, `trim`,
`Array.join`), and JSON-encoded argument strings become `Option JsonObj`
(`none` models an unparseable string, matching the source's
`try JSON.parse catch` default).
-/

namespace GalloConnect

/-! ## String helpers: models of the JavaScript string methods the source uses -/

/-- Model of `List` prefix testing with decidable character equality. -/
def listIsPrefixOf : List Char → List Char → Bool
  | [], _ => true
  | _ :: _, [] => false
  | a :: as, b :: bs => a == b && listIsPrefixOf as bs

/-- Model of infix (substring) testing on character lists. -/
def listIsInfixOf (p : List Char) : List Char → Bool
  | [] => p.isEmpty
  | b :: bs => listIsPrefixOf p (b :: bs) || listIsInfixOf p bs

/-- JavaScript `s.startsWith(p)`. -/
def strStartsWith (s p : String) : Bool := listIsPrefixOf p.data s.data

/-- JavaScript `s.includes(p)`. -/
def strContains (s p : String) : Bool := listIsInfixOf p.data s.data

/-- JavaScript `s.toLowerCase()` (ASCII-adequate model). -/
def strToLower (s : String) : String := ⟨s.data.map Char.toLower⟩

/-- JavaScript `s.trim()`. -/
def strTrim (s : String) : String :=
  ⟨((s.data.dropWhile Char.isWhitespace).reverse.dropWhile Char.isWhitespace).reverse⟩

/-- JavaScript `s.substring(n)`. -/
def strDrop (s : String) (n : Nat) : String := ⟨s.data.drop n⟩

/-- JavaScript `Array.prototype.join(sep)` over a list of strings. -/
def joinSep (sep : String) : List String → String
  | [] => ""
  | [x] => x
  | x :: xs => x ++ sep ++ joinSep sep xs

/-- JavaScript `s.replace(pat, rep)` with a string pattern: first occurrence only. -/
def replaceOnce (s pat rep : String) : String :=
  match s.splitOn pat with
  | [] => s
  | [x] => x
  | x :: xs => x ++ rep ++ String.intercalate pat xs

/-! ## JSON model

Tool-call arguments travel as JSON-encoded strings in the source; we embed
the parsed shape directly. `none` stands for a string `JSON.parse` rejects. -/

/-- A JSON value, restricted to the shapes the embedded code constructs. -/
inductive JsonVal where
  | str (s : String)
  | bool (b : Bool)
  | num (n : Int)
deriving DecidableEq, Repr

/-- A JSON object as an ordered association list of fields. -/
abbrev JsonObj : Type := List (String × JsonVal)

/-- JavaScript object spread `{...o, k: v}`: override `k` in place if present,
else append it. -/
def objSet (o : JsonObj) (k : String) (v : JsonVal) : JsonObj :=
  if (o.map Prod.fst).contains k then
    o.map (fun kv => if kv.1 == k then (kv.1, v) else kv)
  else o ++ [(k, v)]

/-- Rendering of a JSON value (models `JSON.stringify` closely enough for the
inert places the source interpolates it into prompt text). -/
def jsonValRender : JsonVal → String
  | .str s => "\"" ++ s ++ "\""
  | .bool b => if b then "true" else "false"
  | .num n => toString n

/-- Rendering of a JSON object. -/
def jsonObjRender (o : JsonObj) : String :=
  "\x7b" ++ joinSep "," (o.map (fun kv => "\"" ++ kv.1 ++ "\":" ++ jsonValRender kv.2)) ++ "\x7d"

/-! ## Data model (`llm-provider.interface.ts`, `mcp-server.interface.ts`) -/

/-- Message roles from `LLMMessage`. -/
inductive Role where
  | user
  | assistant
  | system
  | tool
deriving DecidableEq, Repr

/-- The `function` field of `LLMToolCall`: `arguments` is a JSON-encoded
string in the source; `none` models an unparseable encoding. -/
structure ToolCallFunction where
  name : String
  arguments : Option JsonObj
deriving DecidableEq, Repr

/-- `LLMToolCall`. -/
structure LLMToolCall where
  id : String
  function : ToolCallFunction
deriving DecidableEq, Repr

/-- `LLMMessage`. `timestamp` is optional in the source interface. -/
structure LLMMessage where
  role : Role
  content : String
  timestamp : Option Int := none
  tool_calls : List LLMToolCall := []
  tool_call_id : Option String := none
deriving DecidableEq, Repr

/-- `LLMResponse` (the fields the orchestrator reads). -/
structure LLMResponse where
  content : String
  tool_calls : List LLMToolCall := []
deriving DecidableEq, Repr

/-- One content part of an `MCPToolResult`; optional fields model the
`undefined`-able properties the formatter reads. -/
structure MCPContent where
  type : String
  text : Option String := none
  name : Option String := none
  uri : Option String := none
  description : Option String := none
deriving DecidableEq, Repr

/-- `MCPToolResult`. -/
structure MCPToolResult where
  content : List MCPContent
  isError : Bool := false
deriving DecidableEq, Repr

/-- A tool discovered from the MCP server (`MCPTool`, the fields
`getToolsForLLM` reads). -/
structure MCPTool where
  name : String
  description : String
deriving DecidableEq, Repr

/-- `LLMFunctionDefinition.function`: a tool definition exposed to a provider. -/
structure FunctionDef where
  name : String
  description : String
deriving DecidableEq, Repr

/-! ## LLM service data (`llm.service.ts`) -/

/-- `LLMProviderType`. -/
inductive LLMProviderType where
  | local
  | openai
  | gemini
  | fallback
deriving DecidableEq, Repr

/-- `LLMServiceConfig` (the fields the failover logic reads). -/
structure LLMServiceConfig where
  primaryProvider : LLMProviderType
  fallbackProvider : Option LLMProviderType := none
  enableFallback : Bool
deriving DecidableEq, Repr

/-- The order-flow steps, in the fixed sequence of `llm.service.ts`. -/
inductive OrderStep where
  | payment
  | address
  | delivery
  | confirmation
  | complete
deriving DecidableEq, Repr

/-- `sessionContext[...].orderFlow`. -/
structure OrderFlow where
  isActive : Bool
  currentStep : OrderStep
  collectedData : JsonObj := []
  availableOptions : JsonObj := []
deriving DecidableEq, Repr

/-- `sessionContext[...].pendingOrderOperation` (the terms-acceptance interrupt). -/
structure PendingOrderOperation where
  originalToolCall : LLMToolCall
  waitingForTermsAcceptance : Bool
  termsMessage : Option String := none
deriving DecidableEq, Repr

/-- One session's entry of the `sessionContext` map. -/
structure SessionContext where
  pendingOrderOperation : Option PendingOrderOperation := none
  orderFlow : Option OrderFlow := none
deriving DecidableEq, Repr

/-- `MAX_CONVERSATION_LENGTH`: the history cap. -/
def MAX_CONVERSATION_LENGTH : Nat := 20

/-- `SESSION_TIMEOUT`: 30 minutes, in milliseconds. -/
def SESSION_TIMEOUT : Int := 30 * 60 * 1000

/-- `CACHE_DURATION`: the availability-cache TTL, in milliseconds. -/
def CACHE_DURATION : Int := 30000

/-- The two process-wide per-session stores plus the provider selection state
of `LLMService`. The JavaScript `Map`s become association lists with at most
one binding per key. -/
structure ServiceState where
  conversationHistory : List (String × List LLMMessage) := []
  sessionContext : List (String × SessionContext) := []
  currentProvider : LLMProviderType := .fallback
  config : Option LLMServiceConfig := none
deriving DecidableEq, Repr

/-- `Map.get`. -/
def alistGet {V : Type} (m : List (String × V)) (k : String) : Option V :=
  (m.find? (fun kv => kv.1 == k)).map (fun kv => kv.2)

/-- `Map.set`: one binding per key; the binding is moved to the end, which is
observationally equivalent for every lookup the embedded code performs. -/
def alistSet {V : Type} (m : List (String × V)) (k : String) (v : V) : List (String × V) :=
  m.filter (fun kv => kv.1 != k) ++ [(k, v)]

/-- `Map.delete`. -/
def alistDelete {V : Type} (m : List (String × V)) (k : String) : List (String × V) :=
  m.filter (fun kv => kv.1 != k)

/-! ## Session history (`getConversationHistory`, `addToConversationHistory`,
`clearConversationHistory`, `cleanupOldSessions`) -/

/-- `getConversationHistory`: a missing session reads as the empty history. -/
def getConversationHistory (st : ServiceState) (sessionId : String) : List LLMMessage :=
  (alistGet st.conversationHistory sessionId).getD []

/-- The pure core of `addToConversationHistory`: push, then trim past the cap
while preserving a `system` message by prepending it to the last `cap − 1`
messages. -/
def addToConversationHistory (history : List LLMMessage) (message : LLMMessage) :
    List LLMMessage :=
  let history := history ++ [message]
  if history.length > MAX_CONVERSATION_LENGTH then
    let systemMessage := history.find? (fun msg => msg.role == Role.system)
    let recentMessages := history.drop (history.length - (MAX_CONVERSATION_LENGTH - 1))
    match systemMessage with
    | some sys => sys :: recentMessages
    | none => recentMessages
  else history

/-- `addToConversationHistory` acting on the session store. -/
def stateAddToConversationHistory (st : ServiceState) (sessionId : String)
    (message : LLMMessage) : ServiceState :=
  let newHistory := addToConversationHistory (getConversationHistory st sessionId) message
  { st with conversationHistory := alistSet st.conversationHistory sessionId newHistory }

/-- `clearConversationHistory`: deletes the history and the session context. -/
def clearConversationHistory (st : ServiceState) (sessionId : String) : ServiceState :=
  { st with
    conversationHistory := alistDelete st.conversationHistory sessionId,
    sessionContext := alistDelete st.sessionContext sessionId }

/-- Whether `cleanupOldSessions` collects a history: only when it has a last
message, that message has a timestamp, and the age exceeds `SESSION_TIMEOUT`. -/
def sessionExpired (now : Int) (history : List LLMMessage) : Bool :=
  match history.getLast? with
  | some lastMessage =>
    match lastMessage.timestamp with
    | some t => now - t > SESSION_TIMEOUT
    | none => false
  | none => false

/-- `cleanupOldSessions`: sweeps expired entries out of `conversationHistory`.
The source iterates only that map; `sessionContext` is left as it is. -/
def cleanupOldSessions (now : Int) (st : ServiceState) : ServiceState :=
  { st with conversationHistory :=
      st.conversationHistory.filter (fun kv => !sessionExpired now kv.2) }

/-! ## Session context (pending order interrupt, order flow) -/

/-- Read a session's context, defaulting to the empty record. -/
def getSessionContext (st : ServiceState) (sessionId : String) : SessionContext :=
  (alistGet st.sessionContext sessionId).getD {}

/-- Write a session's context back. -/
def setSessionContext (st : ServiceState) (sessionId : String) (ctx : SessionContext) :
    ServiceState :=
  { st with sessionContext := alistSet st.sessionContext sessionId ctx }

/-- `setPendingOrderContext`. In the source this method has no call site: the
terms-detection code in `executeMCPTool` cannot reach it (no `sessionId` in
scope there), so the interrupt is never armed. -/
def setPendingOrderContext (st : ServiceState) (sessionId : String)
    (toolCall : LLMToolCall) (termsMessage : Option String) : ServiceState :=
  let context := getSessionContext st sessionId
  let pending : PendingOrderOperation :=
    { originalToolCall := toolCall, waitingForTermsAcceptance := true,
      termsMessage := termsMessage }
  setSessionContext st sessionId ({ context with pendingOrderOperation := some pending })

/-- `isWaitingForTermsAcceptance`. -/
def isWaitingForTermsAcceptance (st : ServiceState) (sessionId : String) : Bool :=
  match (getSessionContext st sessionId).pendingOrderOperation with
  | some p => p.waitingForTermsAcceptance
  | none => false

/-- The pending operation the terms handler consumes: present exactly when
`isWaitingForTermsAcceptance` holds. -/
def pendingWaitingOperation (st : ServiceState) (sessionId : String) :
    Option PendingOrderOperation :=
  match (getSessionContext st sessionId).pendingOrderOperation with
  | some p => if p.waitingForTermsAcceptance then some p else none
  | none => none

/-- `clearPendingOrderContext`. -/
def clearPendingOrderContext (st : ServiceState) (sessionId : String) : ServiceState :=
  let context := getSessionContext st sessionId
  setSessionContext st sessionId ({ context with pendingOrderOperation := none })

/-- `initializeOrderFlow`: a fresh flow at step `payment`. -/
def initializeOrderFlow (st : ServiceState) (sessionId : String) : ServiceState :=
  let context := getSessionContext st sessionId
  let flow : OrderFlow :=
    { isActive := true, currentStep := .payment, collectedData := [],
      availableOptions := [] }
  setSessionContext st sessionId ({ context with orderFlow := some flow })

/-- `hasActiveOrderFlow`. -/
def hasActiveOrderFlow (st : ServiceState) (sessionId : String) : Bool :=
  match (getSessionContext st sessionId).orderFlow with
  | some f => f.isActive
  | none => false

/-- The fixed `stepOrder` array of `advanceOrderStep`. -/
def stepOrder : List OrderStep :=
  [.payment, .address, .delivery, .confirmation, .complete]

/-- The pure core of `advanceOrderStep`: move one position forward in
`stepOrder` unless already at the last step. -/
def advanceStep (s : OrderStep) : OrderStep :=
  let currentIndex := stepOrder.indexOf s
  if currentIndex < stepOrder.length - 1 then (stepOrder.drop (currentIndex + 1)).headD s
  else s

/-- `advanceOrderStep` acting on the session store. -/
def advanceOrderStep (st : ServiceState) (sessionId : String) : ServiceState :=
  let context := getSessionContext st sessionId
  match context.orderFlow with
  | none => st
  | some flow =>
    let advanced := { flow with currentStep := advanceStep flow.currentStep }
    setSessionContext st sessionId ({ context with orderFlow := some advanced })

/-- `updateOrderFlowData`: merge supplied keys over the collected data. -/
def updateOrderFlowData (st : ServiceState) (sessionId : String) (data : JsonObj) :
    ServiceState :=
  let context := getSessionContext st sessionId
  match context.orderFlow with
  | none => st
  | some flow =>
    let merged := data.foldl (fun acc kv => objSet acc kv.1 kv.2) flow.collectedData
    let updated := { flow with collectedData := merged }
    setSessionContext st sessionId ({ context with orderFlow := some updated })

/-- `clearOrderFlow`. -/
def clearOrderFlow (st : ServiceState) (sessionId : String) : ServiceState :=
  let context := getSessionContext st sessionId
  setSessionContext st sessionId ({ context with orderFlow := none })

/-- `startOrderFlow` (public wrapper). -/
def startOrderFlow (st : ServiceState) (sessionId : String) : ServiceState :=
  initializeOrderFlow st sessionId

/-- `cancelOrderFlow` (public wrapper). -/
def cancelOrderFlow (st : ServiceState) (sessionId : String) : ServiceState :=
  clearOrderFlow st sessionId

/-! ## Provider availability cache (`checkProviderAvailabilityWithCache`)

A probe in flight is represented by an identifier; `shareReplay(1)` makes all
subscribers of one observable see that one probe's eventual result. -/

/-- One entry of `availabilityCache`. `observable = some id` is a stored
in-flight shared check. -/
structure CacheEntry where
  available : Bool
  lastCheck : Int
  observable : Option Nat := none
deriving DecidableEq, Repr

/-- What a caller of `checkProviderAvailabilityWithCache` gets back. -/
inductive CheckOutcome where
  /-- `of(cached.available)`: an immediate boolean, no probe subscribed. -/
  | cachedValue (b : Bool)
  /-- the stored in-flight observable: the caller will see probe `id`'s result. -/
  | sharedProbe (id : Nat)
  /-- a fresh shared probe `id` was started; the caller will see its result. -/
  | newProbe (id : Nat)
  /-- `of(false)` because the provider is not registered. -/
  | noProvider
deriving DecidableEq, Repr

/-- `checkProviderAvailabilityWithCache`, for one provider's cache slot: the
fresh-cache test runs first, then the in-flight test, then a new probe is
started and the slot is overwritten with `available := false` (the source's
"Temporary value") and the observable stored. -/
def checkProviderAvailabilityWithCache (cached : Option CacheEntry) (now : Int)
    (providerRegistered : Bool) (freshId : Nat) : CheckOutcome × Option CacheEntry :=
  match cached with
  | some c =>
    if now - c.lastCheck < CACHE_DURATION then (.cachedValue c.available, some c)
    else if c.observable.isSome then (.sharedProbe c.observable.get!, some c)
    else if !providerRegistered then (.noProvider, some c)
    else (.newProbe freshId,
          some { available := false, lastCheck := now, observable := some freshId })
  | none =>
    if !providerRegistered then (.noProvider, none)
    else (.newProbe freshId,
          some { available := false, lastCheck := now, observable := some freshId })

/-- The tap inside the shared probe observable: when probe `id` settles with
`available` at time `now`, the result is cached and the stored observable
cleared. Every subscriber of that observable observes `available`. -/
def completeAvailabilityProbe (available : Bool) (now : Int) : Option CacheEntry :=
  some { available := available, lastCheck := now, observable := none }

/-! ## Rule-based fallback responder (`getFallbackResponse`) -/

/-- `getFallbackResponse`: the deterministic keyword-matched responder used
when no provider is configured, selected, or reachable. -/
def getFallbackResponse (userMessage : String) (error : Option String) : String :=
  let message := strToLower userMessage
  match error with
  | some _ =>
    "I apologize, but I'm experiencing some technical difficulties with my AI assistant. However, I'm still here to help! You asked about \"" ++ userMessage ++ "\" - could you please rephrase your question or let me know how I can assist you?"
  | none =>
    if strContains message "hello" || strContains message "hi" then
      "Hello! Welcome to Gallo Connect. I'm here to help you with any questions about our products, orders, or services. How can I assist you today?"
    else if strContains message "help" then
      "I'm here to help! I can assist you with:\n• Product information and recommendations\n• Order status and tracking\n• Shipping and delivery questions\n• Returns and exchanges\n• Account support\n\nWhat would you like to know more about?"
    else if strContains message "product" || strContains message "item" || strContains message "buy" then
      "I'd be happy to help you find the perfect product! You can browse our full catalog on the website, or tell me what specific type of item you're looking for and I'll guide you in the right direction."
    else if strContains message "order" || strContains message "shipping" || strContains message "delivery" then
      "For order-related inquiries, you can check your order status in your account dashboard. If you need help tracking a shipment or have questions about delivery times, I can guide you through the process. What specific information do you need?"
    else if strContains message "return" || strContains message "refund" || strContains message "exchange" then
      "Our return policy allows returns within 30 days of purchase. I can help you start a return request or answer any questions about our return process. Would you like me to guide you through the steps?"
    else if strContains message "contact" || strContains message "support" || strContains message "phone" then
      "You can reach our customer support team at:\n• Email: support@galloconnect.com\n• Phone: 1-800-GALLO-1\n• Hours: Monday-Friday 9AM-6PM EST\n\nOr I can try to help you right here! What do you need assistance with?"
    else if strContains message "bye" || strContains message "goodbye" || strContains message "thanks" then
      "Thank you for choosing Gallo Connect! Have a wonderful day, and don't hesitate to reach out if you need any more assistance."
    else
      "Thank you for your question! While I'm working to understand your request better, I'd be happy to help you find what you need. Could you provide a bit more detail about what you're looking for? You can also browse our website or contact our support team at support@galloconnect.com for immediate assistance."

/-- `generateSessionId` (the random suffix is an input). -/
def generateSessionId (now : Int) (rnd : String) : String :=
  "session_" ++ toString now ++ "_" ++ rnd

/-! ## Tool result formatting (`formatToolResult` of `llm.service.ts`) -/

/-- The default branch of the formatter: `JSON.stringify` of a non-text
content part. -/
def stringifyContent (content : MCPContent) : String :=
  "\x7b\"type\":\"" ++ content.type ++ "\"\x7d"

/-- `formatToolResult`: error results render with an error banner, empty
results with a success note, otherwise each content part is rendered and the
parts joined with blank lines. -/
def formatToolResult (result : MCPToolResult) : String :=
  if result.isError then
    "❌ Tool Error: " ++ joinSep "\n" (result.content.map (fun c => c.text.getD ""))
  else if result.content.isEmpty then
    "✅ Tool executed successfully (no output)"
  else
    let formattedContent := joinSep "\n\n" (result.content.map (fun content =>
      if content.type == "text" then content.text.getD ""
      else if content.type == "resource" || content.type == "resource_link" then
        "📄 Resource: " ++ ((content.name.orElse (fun _ => content.uri)).getD "Unknown") ++
          "\n" ++ ((content.text.orElse (fun _ => content.description)).getD "")
      else stringifyContent content))
    "✅ Tool Result:\n" ++ formattedContent

/-! ## MCP tool naming and execution (`getToolsForLLM`, `executeMCPTool`) -/

/-- The `mcp_` tool-name marker used by `getToolsForLLM` and stripped by
`executeMCPTool`. -/
def mcpNameMarker : String := "mcp_"

/-- `getToolsForLLM` of `mcp-sdk.service.ts`: every discovered tool is exposed
to the model under its name with `mcp_` prepended. -/
def getToolsForLLM (availableTools : List MCPTool) : List FunctionDef :=
  availableTools.map (fun tool =>
    { name := mcpNameMarker ++ tool.name, description := tool.description })

/-- The environment `executeMCPTool` runs against: the site context, the MCP
connection state, and `mcpService.callTool` as an oracle from the dispatched
tool name and enriched arguments to a transport error or a result. -/
structure ToolEnv where
  baseSite : Option String
  mcpReady : Bool
  reinitSucceeds : Bool
  callTool : String → JsonObj → Except String MCPToolResult

/-- `ensureMCPConnection`: ready, or else the outcome of re-initialization. -/
def ensureMCPConnection (env : ToolEnv) : Bool :=
  if env.mcpReady then true else env.reinitSucceeds

/-- The terms-and-conditions detection performed on a tool result inside
`executeMCPTool` (lines 753–762): an error result of a tool whose dispatched
name contains `place-order` whose joined text contains both `terms` and
`condition` case-insensitively. In the source the detection only logs — the
method has no `sessionId`, so no session state is written. -/
def termsConditionsErrorDetected (originalName : String) (result : MCPToolResult) : Bool :=
  result.isError && strContains originalName "place-order" &&
    (let errorText := strToLower (joinSep " " (result.content.map (fun c => c.text.getD "")))
     strContains errorText "terms" && strContains errorText "condition")

/-- `executeMCPTool` of `llm.service.ts`: reject names without the `mcp_`
marker, strip the marker, parse the JSON arguments (defaulting to the empty
object), auto-inject `baseSiteId`, require a healthy connection, then
dispatch. The terms detection on the result writes no state (see
`termsConditionsErrorDetected`), so the result passes through unchanged. -/
def executeMCPTool (env : ToolEnv) (toolCall : LLMToolCall) : Except String MCPToolResult :=
  let functionName := toolCall.function.name
  if !strStartsWith functionName mcpNameMarker then
    .error ("Invalid MCP function name: " ++ functionName)
  else
    let originalName := strDrop functionName mcpNameMarker.length
    let args := toolCall.function.arguments.getD []
    let args := match env.baseSite with
      | some site => objSet args "baseSiteId" (JsonVal.str site)
      | none => args
    if !ensureMCPConnection env then
      .error "MCP connection could not be established"
    else
      env.callTool originalName args

/-! ## Provider adapters: what each backend request carries
(`gemini.provider.ts`, `local-llm.provider.ts`) -/

/-- One entry of a Gemini `contents` array (text parts only, as built by
`convertMessagesToGeminiFormat`). -/
structure GeminiContent where
  role : String
  parts : List String
deriving DecidableEq, Repr

/-- The fixed system instruction `convertMessagesToGeminiFormat` prepends. -/
def geminiSystemPrompt : String :=
  "You are a helpful customer service assistant for Gallo Connect, an e-commerce platform. Provide helpful, friendly, and accurate responses to customer inquiries about products, orders, shipping, returns, and general support. Keep responses concise but informative."

/-- `GeminiProvider.convertMessagesToGeminiFormat`: the fixed persona exchange
followed by the user/assistant messages; `system` and `tool` messages are
dropped. -/
def convertMessagesToGeminiFormat (messages : List LLMMessage) : List GeminiContent :=
  let preamble : List GeminiContent :=
    [{ role := "user", parts := [geminiSystemPrompt] },
     { role := "model",
       parts := ["I understand. I'm here to help customers with their Gallo Connect inquiries."] }]
  preamble ++ messages.filterMap (fun message =>
    if message.role = Role.user then some { role := "user", parts := [message.content] }
    else if message.role = Role.assistant then some { role := "model", parts := [message.content] }
    else none)

/-- The Gemini request body as a function of the adapter's inputs. The
`generationConfig` and `safetySettings` fields of the source are fixed
constants independent of the inputs and are omitted; `contents` is the only
input-dependent field, and the body has no tools field of any kind. -/
structure GeminiRequest where
  contents : List GeminiContent
deriving DecidableEq, Repr

/-- `GeminiProvider.generateResponse`, request construction: the `tools`
parameter is accepted by the signature and never read. -/
def geminiGenerateRequest (messages : List LLMMessage) (tools : List FunctionDef) :
    GeminiRequest :=
  { contents := convertMessagesToGeminiFormat messages }

/-- `LocalLLMProvider.convertMessagesToPrompt`. -/
def convertMessagesToPrompt (messages : List LLMMessage) : String :=
  let prompt :=
    "You are a helpful customer service assistant for Gallo Connect, an e-commerce platform. Provide helpful, friendly, and accurate responses to customer inquiries.\n\n"
  let prompt := messages.foldl (fun p message =>
    if message.role = Role.user then p ++ "Customer: " ++ message.content ++ "\n"
    else if message.role = Role.assistant then p ++ "Assistant: " ++ message.content ++ "\n"
    else p) prompt
  prompt ++ "Assistant: "

/-- The Ollama request body (input-dependent field: `prompt`). -/
structure OllamaRequest where
  prompt : String
deriving DecidableEq, Repr

/-- The tools block `generateOllamaResponse` appends to the prompt when tools
are supplied: one `- name: description` line per tool. -/
def ollamaToolsInfo (tools : List FunctionDef) : String :=
  joinSep "\n" (tools.map (fun tool => "- " ++ tool.name ++ ": " ++ tool.description))

/-- `LocalLLMProvider.generateOllamaResponse`, request construction: Ollama
has no native tool calling, so a non-empty tool list is serialized into the
prompt text. -/
def generateOllamaRequest (messages : List LLMMessage) (tools : List FunctionDef) :
    OllamaRequest :=
  let prompt := convertMessagesToPrompt messages
  let prompt :=
    if tools.length > 0 then
      prompt ++ "\n\nAvailable tools:\n" ++ ollamaToolsInfo tools ++
        "\n\nNote: If you need to use any of these tools, please indicate which tool you would like to use and with what parameters."
    else prompt
  { prompt := prompt }

/-- The OpenAI-compatible request body (input-dependent fields). -/
structure OpenAICompatRequest where
  messages : List LLMMessage
  tools : Option (List FunctionDef) := none
  tool_choice : Option String := none
deriving DecidableEq, Repr

/-- The system message `generateOpenAICompatibleResponse` prepends. -/
def localSystemMessage : LLMMessage :=
  { role := Role.system,
    content := "You are a helpful customer service assistant for Gallo Connect, an e-commerce platform. Provide helpful, friendly, and accurate responses to customer inquiries about products, orders, shipping, returns, and general support. Keep responses concise but informative. When available, use the provided tools to search for products, check inventory, or perform other actions." }

/-- `LocalLLMProvider.generateOpenAICompatibleResponse`, request construction:
this backend supports native function calling, so a non-empty tool list is
passed structurally with `tool_choice: auto`. -/
def generateOpenAICompatibleRequest (messages : List LLMMessage)
    (tools : List FunctionDef) : OpenAICompatRequest :=
  let base : OpenAICompatRequest := { messages := localSystemMessage :: messages }
  if tools.length > 0 then { base with tools := some tools, tool_choice := some "auto" }
  else base

/-! ## Conversation orchestrator (`generateResponse`,
`generateResponseWithSession`, `executeToolCalls`,
`handleTermsAcceptanceResponse`)

Asynchronous provider calls become an oracle `respond`; the turn functions
additionally return the list of message lists sent to a provider, so that
"no further model round-trip" and "exactly one follow-up call" are stated
about the embedding rather than assumed. -/

/-- A provider adapter as the orchestrator sees it: a deterministic oracle
from a message list and an optional tool list to a response or an error. -/
structure ProviderOracle where
  respond : List LLMMessage → Option (List FunctionDef) → Except String LLMResponse

/-- The per-turn environment: the tool client, the provider registry, the
discovered tool definitions, the clock, and the random session suffix. -/
structure TurnEnv where
  tool : ToolEnv
  providers : LLMProviderType → Option ProviderOracle
  mcpTools : List FunctionDef
  now : Int
  rnd : String
  origin : String

/-- The `\x7b\x7bbaseSite\x7d\x7d` placeholder of the system prompt. -/
def baseSitePlaceholder : String := "\x7b\x7bbaseSite\x7d\x7d"

/-- The `\x7b\x7bbaseSiteUrl\x7d\x7d` placeholder of the system prompt. -/
def baseSiteUrlPlaceholder : String := "\x7b\x7bbaseSiteUrl\x7d\x7d"

/-- `SYSTEM_PROMPT`. The persona and order-process instructions are a long
fixed text that no orchestration logic inspects; it is abridged here to its
frame and the two placeholders `createSystemPrompt` substitutes. -/
def SYSTEM_PROMPT : String :=
  "You are a helpful AI assistant for Gallo Connect, a modern SAP Commerce (Spartacus) based e-commerce platform. [...] Base site: " ++
    baseSitePlaceholder ++ "\n- Current URL: " ++ baseSiteUrlPlaceholder ++ " [...]"

/-- `createSystemPrompt`: the grounding system message with the site context
substituted. -/
def createSystemPrompt (env : TurnEnv) : LLMMessage :=
  let currentBaseSite := env.tool.baseSite.getD "unknown"
  let contextualizedPrompt :=
    replaceOnce (replaceOnce SYSTEM_PROMPT baseSitePlaceholder currentBaseSite)
      baseSiteUrlPlaceholder env.origin
  { role := Role.system, content := contextualizedPrompt, timestamp := some env.now }

/-- The tool-result message one tool call contributes in `executeToolCalls`: a
formatted result on success, the synthetic error message on a per-call
exception. -/
def toolResultMessage (env : ToolEnv) (now : Int) (toolCall : LLMToolCall) : LLMMessage :=
  match executeMCPTool env toolCall with
  | .ok result =>
    { role := Role.tool, content := formatToolResult result,
      tool_call_id := some toolCall.id, timestamp := some now }
  | .error e =>
    { role := Role.tool,
      content := "Error executing tool " ++ toolCall.function.name ++ ": " ++ e,
      tool_call_id := some toolCall.id, timestamp := some now }

/-- The assistant message carrying the tool-call batch that `executeToolCalls`
appends before the results. -/
def assistantToolCallMessage (now : Int) (originalResponse : LLMResponse)
    (toolCalls : List LLMToolCall) : LLMMessage :=
  { role := Role.assistant, content := originalResponse.content,
    tool_calls := toolCalls, timestamp := some now }

/-- What `executeToolCalls` produces: the final text, every message list sent
to a provider while resolving the batch, and the tool-result messages. -/
structure ToolCallsOutcome where
  text : String
  followupInputs : List (List LLMMessage)
  toolResultMessages : List LLMMessage
deriving DecidableEq, Repr

/-- `executeToolCalls`: append the assistant tool-call message, settle every
tool call (per-call errors become synthetic tool messages), append all
results, then invoke the current provider exactly once more — with no tool
definitions — and return its content (its own `tool_calls`, if any, are never
executed). -/
def executeToolCalls (env : TurnEnv) (currentProvider : LLMProviderType)
    (toolCalls : List LLMToolCall) (messages : List LLMMessage)
    (originalResponse : LLMResponse) : ToolCallsOutcome :=
  let assistantMessage := assistantToolCallMessage env.now originalResponse toolCalls
  let updatedMessages := messages ++ [assistantMessage]
  let toolResults := toolCalls.map (toolResultMessage env.tool env.now)
  let messagesWithToolResults := updatedMessages ++ toolResults
  match env.providers currentProvider with
  | none =>
    { text := "Tool execution completed, but unable to generate follow-up response.",
      followupInputs := [], toolResultMessages := toolResults }
  | some provider =>
    match provider.respond messagesWithToolResults none with
    | .ok followupResponse =>
      { text := followupResponse.content,
        followupInputs := [messagesWithToolResults], toolResultMessages := toolResults }
    | .error e =>
      { text := "Tools executed successfully, but follow-up response failed: " ++ e,
        followupInputs := [messagesWithToolResults], toolResultMessages := toolResults }

/-- `handleLLMResponse`: execute a non-empty tool-call batch, else pass the
content through. Also returns the provider inputs of any follow-up round. -/
def handleLLMResponse (env : TurnEnv) (currentProvider : LLMProviderType)
    (response : LLMResponse) (messages : List LLMMessage) :
    String × List (List LLMMessage) :=
  if response.tool_calls.length > 0 then
    let outcome := executeToolCalls env currentProvider response.tool_calls messages response
    (outcome.text, outcome.followupInputs)
  else (response.content, [])

/-- `tryFallbackProvider`: one attempt against the configured fallback, else
the rule-based responder on the last message's content. -/
def tryFallbackProvider (env : TurnEnv) (messages : List LLMMessage)
    (fallbackType : LLMProviderType) : String × List (List LLMMessage) :=
  let lastContent := (messages.getLast?.map (fun m => m.content)).getD ""
  if fallbackType = LLMProviderType.fallback then (getFallbackResponse lastContent none, [])
  else
    match env.providers fallbackType with
    | none => (getFallbackResponse lastContent none, [])
    | some fallbackProvider =>
      match fallbackProvider.respond messages none with
      | .ok response => (response.content, [messages])
      | .error _ => (getFallbackResponse lastContent none, [messages])

/-- `generateResponse`: build `[systemPrompt] ++ history ++ [userMsg]`, hand
it with the discovered tools to the active provider, resolve tool calls, and
degrade on provider failure to the configured fallback provider and then to
the rule-based responder. (`ensureMCPConnection`'s boolean is ignored by this
pipeline in the source; `getToolsForLLM` returns the currently cached tools
either way.) Returns the answer text and every provider input used. -/
def generateResponse (env : TurnEnv) (st : ServiceState) (userMessage : String)
    (conversationHistory : List LLMMessage) : String × List (List LLMMessage) :=
  match st.config with
  | none => (getFallbackResponse userMessage none, [])
  | some config =>
    let systemPrompt := createSystemPrompt env
    let userMsg : LLMMessage :=
      { role := Role.user, content := userMessage, timestamp := some env.now }
    let messages := systemPrompt :: (conversationHistory ++ [userMsg])
    if st.currentProvider = LLMProviderType.fallback then
      (getFallbackResponse userMessage none, [])
    else
      match env.providers st.currentProvider with
      | none => (getFallbackResponse userMessage none, [])
      | some provider =>
        match provider.respond messages (some env.mcpTools) with
        | .ok response =>
          let (text, followups) := handleLLMResponse env st.currentProvider response messages
          (text, messages :: followups)
        | .error e =>
          match config.fallbackProvider with
          | some fallbackType =>
            if config.enableFallback && fallbackType ≠ st.currentProvider then
              let (text, calls) := tryFallbackProvider env messages fallbackType
              (text, messages :: calls)
            else (getFallbackResponse userMessage (some e), [messages])
          | none => (getFallbackResponse userMessage (some e), [messages])

/-- The ephemeral order-context system message injected while an order flow is
active. -/
def orderContextMessage (st : ServiceState) (sessionId : String) (now : Int) : LLMMessage :=
  let flow := (getSessionContext st sessionId).orderFlow
  let stepText := match flow with
    | some f =>
      match f.currentStep with
      | .payment => "payment"
      | .address => "address"
      | .delivery => "delivery"
      | .confirmation => "confirmation"
      | .complete => "complete"
    | none => "null"
  let collected := (flow.map (fun f => f.collectedData)).getD []
  let options := (flow.map (fun f => f.availableOptions)).getD []
  { role := Role.system,
    content := "[ORDER FLOW CONTEXT] Current step: " ++ stepText ++ ", Collected data: " ++
      jsonObjRender collected ++ ", Available options: " ++ jsonObjRender options,
    timestamp := some now }

/-- The order-initiation phrases of `generateResponseWithSession`. -/
def orderKeywords : List String :=
  ["place order", "place my order", "checkout", "complete order", "finish order", "buy now"]

/-- The result of one session turn: the answer, the session id, the posterior
service state, and every message list sent to a provider during the turn. -/
structure TurnResult where
  response : String
  sessionId : String
  state : ServiceState
  providerCalls : List (List LLMMessage)
deriving Repr

/-- The accept classification of `handleTermsAcceptanceResponse`: lowercase
and trim, then test containment of the accept tokens (or equality with
`y`); anything else is a decline. -/
def termsAccepted (userMessage : String) : Bool :=
  let userResponse := strToLower (strTrim userMessage)
  strContains userResponse "yes" || strContains userResponse "accept" ||
    strContains userResponse "agree" || strContains userResponse "ok" || userResponse == "y"

/-- The retried tool call built on acceptance: the stored original call with
`termsChecked: true` spread into its JSON-parsed arguments (and nothing else
changed, including any stale order data — the known gap noted in the spec). -/
def retryWithTermsChecked (toolCall : LLMToolCall) : LLMToolCall :=
  { toolCall with
    function := { toolCall.function with
      arguments := some (objSet (toolCall.function.arguments.getD [])
        "termsChecked" (JsonVal.bool true)) } }

/-- `handleTermsAcceptanceResponse`: classify the utterance with the accept
tokens, clear the interrupt in both branches, and on accept retry the stored
tool call with `termsChecked: true` spread into its parsed arguments — the
result is formatted and returned with no provider round-trip. -/
def handleTermsAcceptanceResponse (env : TurnEnv) (st : ServiceState)
    (userMessage : String) (sessionId : String)
    (pendingOrder : PendingOrderOperation) : TurnResult :=
  let isAccepted := termsAccepted userMessage
  let userMsg : LLMMessage :=
    { role := Role.user, content := userMessage, timestamp := some env.now }
  if isAccepted then
    let st := clearPendingOrderContext st sessionId
    let st := stateAddToConversationHistory st sessionId userMsg
    let modifiedToolCall := retryWithTermsChecked pendingOrder.originalToolCall
    match executeMCPTool env.tool modifiedToolCall with
    | .ok result =>
      let response := formatToolResult result
      let content := "Thank you for accepting the terms and conditions. " ++ response
      let assistantMsg : LLMMessage :=
        { role := Role.assistant, content := content, timestamp := some env.now }
      let st := stateAddToConversationHistory st sessionId assistantMsg
      { response := content, sessionId := sessionId, state := st, providerCalls := [] }
    | .error e =>
      let errorResponse :=
        "I've processed your acceptance of the terms, but encountered an error while placing the order: " ++ e
      let errorMsg : LLMMessage :=
        { role := Role.assistant, content := errorResponse, timestamp := some env.now }
      let st := stateAddToConversationHistory st sessionId errorMsg
      { response := errorResponse, sessionId := sessionId, state := st, providerCalls := [] }
  else
    let st := clearPendingOrderContext st sessionId
    let st := stateAddToConversationHistory st sessionId userMsg
    let response :=
      "I understand you don't wish to accept the terms and conditions. Unfortunately, I cannot proceed with placing the order without your acceptance of the terms. Is there anything else I can help you with?"
    let assistantMsg : LLMMessage :=
      { role := Role.assistant, content := response, timestamp := some env.now }
    let st := stateAddToConversationHistory st sessionId assistantMsg
    { response := response, sessionId := sessionId, state := st, providerCalls := [] }

/-- `generateResponseWithSession`: generate or reuse the session id, divert
the turn to the terms handler while the interrupt is armed, else detect
order-initiation phrases, append the user message, optionally inject the
ephemeral order context, produce the answer, and append it to the history.
(The source's local `conversationHistory` aliases the stored array, so the
request history seen by the provider includes the pushed user message.) -/
def generateResponseWithSession (env : TurnEnv) (st : ServiceState)
    (userMessage : String) (sessionIdArg : Option String) : TurnResult :=
  let sessionId := match sessionIdArg with
    | none => generateSessionId env.now env.rnd
    | some s => if s.isEmpty then generateSessionId env.now env.rnd else s
  match pendingWaitingOperation st sessionId with
  | some pendingOrder => handleTermsAcceptanceResponse env st userMessage sessionId pendingOrder
  | none =>
    let userMessageLower := strToLower userMessage
    let isOrderRequest := orderKeywords.any (fun keyword => strContains userMessageLower keyword)
    let st :=
      if isOrderRequest && !hasActiveOrderFlow st sessionId then initializeOrderFlow st sessionId
      else st
    let priorHistory := getConversationHistory st sessionId
    let userMsg : LLMMessage :=
      { role := Role.user, content := userMessage, timestamp := some env.now }
    let st := stateAddToConversationHistory st sessionId userMsg
    let historyAfterPush := priorHistory ++ [userMsg]
    let enhancedHistory :=
      if hasActiveOrderFlow st sessionId then
        historyAfterPush ++ [orderContextMessage st sessionId env.now]
      else historyAfterPush
    let (response, calls) := generateResponse env st userMessage enhancedHistory
    let assistantMsg : LLMMessage :=
      { role := Role.assistant, content := response, timestamp := some env.now }
    let st := stateAddToConversationHistory st sessionId assistantMsg
    { response := response, sessionId := sessionId, state := st, providerCalls := calls }

/-! ## Verification-side definitions: invariants and concrete scenario fixtures -/

/-- The process-wide invariant: every stored history respects the cap. -/
def historiesBounded (st : ServiceState) : Prop :=
  ∀ kv ∈ st.conversationHistory, kv.2.length ≤ MAX_CONVERSATION_LENGTH

/-- The tool result of a `place-order` call rejected for missing
terms-and-conditions acceptance (the message of end-to-end scenario C). -/
def exTermsResult : MCPToolResult :=
  { content := [{ type := "text",
                  text := some "Order requires terms and conditions acceptance" }],
    isError := true }

/-- A tool environment whose `place-order` tool reports the terms error and
whose other tools return an empty success. -/
def exTermsToolEnv : ToolEnv :=
  { baseSite := some "galloB2B", mcpReady := true, reinitSucceeds := true,
    callTool := fun name _ =>
      if name == "place-order" then .ok exTermsResult else .ok { content := [] } }

/-- A provider that answers the tool-equipped request with one
`mcp_place-order` tool call and the tool-free follow-up with a plain answer. -/
def exPlaceOrderProvider : ProviderOracle :=
  let placeOrderCall : LLMToolCall :=
    { id := "call_1", function := { name := "mcp_place-order", arguments := some [] } }
  { respond := fun _ toolsArg =>
      match toolsArg with
      | some _ => .ok { content := "", tool_calls := [placeOrderCall] }
      | none => .ok { content := "final answer" } }

/-- The turn environment of the terms-error scenario. -/
def exTermsEnv : TurnEnv :=
  { tool := exTermsToolEnv,
    providers := fun t => if t = LLMProviderType.local then some exPlaceOrderProvider else none,
    mcpTools := [{ name := "mcp_place-order", description := "Place the order" }],
    now := 1000, rnd := "abc", origin := "http://site" }

/-- A service state with the local provider active. -/
def exLocalState : ServiceState :=
  { currentProvider := .local,
    config := some { primaryProvider := .local, enableFallback := false } }

/-- A stored pending `place-order` tool call waiting for terms acceptance. -/
def exPendingOrder : PendingOrderOperation :=
  { originalToolCall :=
      { id := "c9",
        function := { name := "mcp_place-order",
                      arguments := some [("productCode", JsonVal.str "P1")] } },
    waitingForTermsAcceptance := true }

/-- A state whose session `s2` is waiting for terms acceptance. -/
def exWaitingState : ServiceState :=
  { sessionContext := [("s2", { pendingOrderOperation := some exPendingOrder })],
    currentProvider := .local,
    config := some { primaryProvider := .local, enableFallback := false } }

/-- A tool environment that accepts exactly the retried `place-order` call
carrying the original argument plus `termsChecked: true`. -/
def exRetryToolEnv : ToolEnv :=
  { baseSite := none, mcpReady := true, reinitSucceeds := true,
    callTool := fun name args =>
      if name == "place-order" &&
          args == [("productCode", JsonVal.str "P1"), ("termsChecked", JsonVal.bool true)] then
        .ok { content := [{ type := "text", text := some "order placed" }] }
      else .error "unexpected call" }

/-- The turn environment of the terms-retry scenario. -/
def exRetryEnv : TurnEnv :=
  { exTermsEnv with tool := exRetryToolEnv }

/-- A state holding one expired session `s9` (last message at time 0) with an
active order flow recorded in its session context. -/
def exExpiredState : ServiceState :=
  { conversationHistory := [("s9", [{ role := Role.user, content := "hi", timestamp := some 0 }])],
    sessionContext := [("s9", { orderFlow := some { isActive := true, currentStep := .payment } })] }

/-- A turn environment with no reachable provider (scenario A). -/
def exNoProviderEnv : TurnEnv :=
  { tool := { baseSite := none, mcpReady := false, reinitSucceeds := false,
              callTool := fun _ _ => .error "no backend" },
    providers := fun _ => none, mcpTools := [], now := 1000, rnd := "abc",
    origin := "http://site" }

/-- A service state whose active provider is the rule-based fallback. -/
def exFallbackState : ServiceState :=
  { currentProvider := .fallback,
    config := some { primaryProvider := .fallback, enableFallback := false } }

/-- A tool environment whose every call fails at the transport level
(scenario D). -/
def exNetworkErrorToolEnv : ToolEnv :=
  { baseSite := none, mcpReady := true, reinitSucceeds := true,
    callTool := fun _ _ => .error "Network error" }

/-- A provider answering every request with a fixed summary (the follow-up
oracle of scenario D). -/
def exSummaryProvider : ProviderOracle :=
  { respond := fun _ _ => .ok { content := "summary of tool results" } }

/-- The turn environment of scenario D. -/
def exNetworkErrorEnv : TurnEnv :=
  { tool := exNetworkErrorToolEnv,
    providers := fun t => if t = LLMProviderType.local then some exSummaryProvider else none,
    mcpTools := [], now := 5, rnd := "xyz", origin := "http://site" }

/-- The two tool calls of scenario D. -/
def exTwoToolCalls : List LLMToolCall :=
  [{ id := "t1", function := { name := "mcp_product-search", arguments := some [] } },
   { id := "t2", function := { name := "mcp_get-cart", arguments := some [] } }]

/-! ## Helper lemmas -/

theorem listIsPrefixOf_iff : ∀ (p l : List Char), listIsPrefixOf p l = true ↔ p <+: l
  | [], l => by simp [listIsPrefixOf]
  | a :: as, [] => by simp [listIsPrefixOf]
  | a :: as, b :: bs => by
    simp only [listIsPrefixOf, Bool.and_eq_true, beq_iff_eq, List.cons_prefix_cons,
      listIsPrefixOf_iff as bs]

theorem listIsInfixOf_iff : ∀ (p l : List Char), listIsInfixOf p l = true ↔ p <:+: l
  | p, [] => by
    simp only [listIsInfixOf, List.isEmpty_iff, List.infix_nil]
  | p, b :: bs => by
    simp only [listIsInfixOf, Bool.or_eq_true, listIsPrefixOf_iff, listIsInfixOf_iff p bs,
      List.infix_cons_iff]

theorem strContains_iff (s p : String) : strContains s p = true ↔ p.data <:+: s.data :=
  listIsInfixOf_iff p.data s.data

theorem strStartsWith_append (p s : String) : strStartsWith (p ++ s) p = true := by
  rw [strStartsWith, String.data_append, listIsPrefixOf_iff]
  exact List.prefix_append p.data s.data

theorem strDrop_append (p s : String) : strDrop (p ++ s) p.length = s := by
  rw [strDrop, String.data_append]
  show (⟨(p.data ++ s.data).drop p.data.length⟩ : String) = s
  rw [List.drop_left]

theorem length_joinSep_cons (sep : String) (x : String) (y : String) (ys : List String) :
    joinSep sep (x :: y :: ys) = x ++ sep ++ joinSep sep (y :: ys) := rfl

/-- Every element of a joined list is an infix of the join. -/
theorem infix_joinSep (sep : String) :
    ∀ (xs : List String) (x : String), x ∈ xs → x.data <:+: (joinSep sep xs).data
  | [], x, hx => absurd hx (List.not_mem_nil x)
  | [y], x, hx => by
    rw [List.mem_singleton] at hx
    exact hx ▸ List.infix_refl _
  | y :: z :: zs, x, hx => by
    rw [length_joinSep_cons, String.data_append, String.data_append]
    rcases List.mem_cons.mp hx with h | h
    · exact h ▸ ((y.data.prefix_append _).trans (List.prefix_append _ _)).isInfix
    · exact (infix_joinSep sep (z :: zs) x h).trans (List.suffix_append _ _).isInfix

theorem find?_key_filter_self {V : Type} (m : List (String × V)) (k : String) :
    (m.filter (fun kv => kv.1 != k)).find? (fun kv => kv.1 == k) = none := by
  rw [List.find?_eq_none]
  intro x hx
  have hmem := (List.mem_filter.mp hx).2
  simp only [bne_iff_ne, ne_eq] at hmem
  simp only [beq_iff_eq]
  exact hmem

theorem find?_key_filter_ne {V : Type} (m : List (String × V)) (k k' : String)
    (h : k' ≠ k) :
    (m.filter (fun kv => kv.1 != k)).find? (fun kv => kv.1 == k') =
      m.find? (fun kv => kv.1 == k') := by
  induction m with
  | nil => rfl
  | cons kv m ih =>
    by_cases h1 : kv.1 = k
    · have h2 : (kv.1 == k') = false := by
        rw [h1]; exact beq_false_of_ne (Ne.symm h)
      have hq : ¬((kv.1 != k) = true) := by simp [bne, h1]
      rw [List.filter_cons, if_neg hq, ih, List.find?_cons, h2]
    · have hq : (kv.1 != k) = true := by simp [bne, h1]
      by_cases h2 : kv.1 = k'
      · have h2t : (kv.1 == k') = true := by simp [h2]
        rw [List.filter_cons, if_pos hq, List.find?_cons, h2t, List.find?_cons, h2t]
      · have h2f : (kv.1 == k') = false := beq_false_of_ne h2
        rw [List.filter_cons, if_pos hq, List.find?_cons, h2f, List.find?_cons, h2f, ih]

theorem alistGet_set_self {V : Type} (m : List (String × V)) (k : String) (v : V) :
    alistGet (alistSet m k v) k = some v := by
  rw [alistGet, alistSet, List.find?_append, find?_key_filter_self]
  simp [List.find?]

theorem alistGet_set_ne {V : Type} (m : List (String × V)) (k k' : String) (v : V)
    (h : k' ≠ k) : alistGet (alistSet m k v) k' = alistGet m k' := by
  have hone : List.find? (fun kv => kv.1 == k') [(k, v)] = none := by
    simp [List.find?, beq_false_of_ne (Ne.symm h)]
  rw [alistGet, alistSet, List.find?_append, hone, Option.or_none,
    find?_key_filter_ne m k k' h, alistGet]

theorem alistGet_delete_self {V : Type} (m : List (String × V)) (k : String) :
    alistGet (alistDelete m k) k = none := by
  rw [alistGet, alistDelete, find?_key_filter_self]
  rfl

/-- The values of `alistSet m k v` are `v` and values of `m`. -/
theorem alistSet_values {V : Type} (m : List (String × V)) (k : String) (v : V)
    (kv' : String × V) (h : kv' ∈ alistSet m k v) : kv' ∈ m ∨ kv'.2 = v := by
  rcases List.mem_append.mp h with h | h
  · exact Or.inl (List.mem_filter.mp h).1
  · rcases List.mem_singleton.mp h with rfl
    exact Or.inr rfl

/-! ## History cap lemmas -/

theorem addToConversationHistory_length_le (history : List LLMMessage)
    (message : LLMMessage) :
    (addToConversationHistory history message).length ≤ MAX_CONVERSATION_LENGTH := by
  unfold addToConversationHistory
  dsimp only
  by_cases h : (history ++ [message]).length > MAX_CONVERSATION_LENGTH
  · rw [if_pos h]
    cases hf : (history ++ [message]).find? (fun msg => msg.role == Role.system) with
    | none =>
      dsimp only
      rw [List.length_drop]
      simp only [MAX_CONVERSATION_LENGTH]
      omega
    | some sys =>
      dsimp only [List.length_cons]
      rw [List.length_drop]
      simp only [MAX_CONVERSATION_LENGTH]
      omega
  · rw [if_neg h]
    omega

theorem addToConversationHistory_system_preserved (history : List LLMMessage)
    (message : LLMMessage)
    (hsys : ∃ m ∈ history ++ [message], m.role = Role.system) :
    ∃ m ∈ addToConversationHistory history message, m.role = Role.system := by
  unfold addToConversationHistory
  dsimp only
  by_cases h : (history ++ [message]).length > MAX_CONVERSATION_LENGTH
  · rw [if_pos h]
    obtain ⟨x, hx, hrole⟩ := hsys
    have hsome : ((history ++ [message]).find? (fun msg => msg.role == Role.system)).isSome :=
      List.find?_isSome.mpr ⟨x, hx, by simp [hrole]⟩
    cases hf : (history ++ [message]).find? (fun msg => msg.role == Role.system) with
    | none => rw [hf] at hsome; simp at hsome
    | some sys =>
      refine ⟨sys, List.mem_cons_self _ _, ?_⟩
      have := List.find?_some hf
      simpa using this
  · rw [if_neg h]
    exact hsys

theorem addToConversationHistory_recent_suffix (history : List LLMMessage)
    (message : LLMMessage)
    (h : (history ++ [message]).length > MAX_CONVERSATION_LENGTH) :
    ((history ++ [message]).drop
        ((history ++ [message]).length - (MAX_CONVERSATION_LENGTH - 1))).IsSuffix
      (addToConversationHistory history message) := by
  unfold addToConversationHistory
  dsimp only
  rw [if_pos h]
  cases hf : (history ++ [message]).find? (fun msg => msg.role == Role.system) with
  | none => exact List.suffix_refl _
  | some sys => exact (List.suffix_refl _).trans (List.suffix_cons sys _)

theorem historiesBounded_stateAdd (st : ServiceState) (sessionId : String)
    (message : LLMMessage) (hb : historiesBounded st) :
    historiesBounded (stateAddToConversationHistory st sessionId message) := by
  intro kv hkv
  rcases alistSet_values _ _ _ _ hkv with h | h
  · exact hb kv h
  · rw [h]; exact addToConversationHistory_length_le _ _

theorem historiesBounded_handleTerms (env : TurnEnv) (st : ServiceState)
    (userMessage sessionId : String) (pendingOrder : PendingOrderOperation)
    (hb : historiesBounded st) :
    historiesBounded (handleTermsAcceptanceResponse env st userMessage sessionId
      pendingOrder).state := by
  have hbc : historiesBounded (clearPendingOrderContext st sessionId) := hb
  unfold handleTermsAcceptanceResponse
  dsimp only
  split
  · split
    · exact historiesBounded_stateAdd _ _ _ (historiesBounded_stateAdd _ _ _ hbc)
    · exact historiesBounded_stateAdd _ _ _ (historiesBounded_stateAdd _ _ _ hbc)
  · exact historiesBounded_stateAdd _ _ _ (historiesBounded_stateAdd _ _ _ hbc)

theorem historiesBounded_turn (env : TurnEnv) (st : ServiceState)
    (userMessage : String) (sessionIdArg : Option String) (hb : historiesBounded st) :
    historiesBounded (generateResponseWithSession env st userMessage sessionIdArg).state := by
  unfold generateResponseWithSession
  dsimp only
  split
  · exact historiesBounded_handleTerms _ _ _ _ _ hb
  · split
    · exact historiesBounded_stateAdd _ _ _ (historiesBounded_stateAdd _ _ _ hb)
    · exact historiesBounded_stateAdd _ _ _ (historiesBounded_stateAdd _ _ _ hb)

/-! ## Session context lemmas -/

theorem getSessionContext_set_self (st : ServiceState) (sessionId : String)
    (ctx : SessionContext) :
    getSessionContext (setSessionContext st sessionId ctx) sessionId = ctx := by
  unfold getSessionContext setSessionContext
  dsimp only
  rw [alistGet_set_self]
  rfl

theorem isWaiting_clearPending_self (st : ServiceState) (sessionId : String) :
    isWaitingForTermsAcceptance (clearPendingOrderContext st sessionId) sessionId = false := by
  unfold isWaitingForTermsAcceptance clearPendingOrderContext
  rw [getSessionContext_set_self]

theorem isWaiting_initFlow_self (st : ServiceState) (sessionId : String) :
    isWaitingForTermsAcceptance (initializeOrderFlow st sessionId) sessionId =
      isWaitingForTermsAcceptance st sessionId := by
  unfold isWaitingForTermsAcceptance initializeOrderFlow
  rw [getSessionContext_set_self]

theorem isWaiting_eq_isSome (st : ServiceState) (sessionId : String) :
    isWaitingForTermsAcceptance st sessionId =
      (pendingWaitingOperation st sessionId).isSome := by
  unfold isWaitingForTermsAcceptance pendingWaitingOperation
  cases (getSessionContext st sessionId).pendingOrderOperation with
  | none => rfl
  | some p => cases hw : p.waitingForTermsAcceptance <;> simp [hw]

theorem isWaiting_stateAdd (st : ServiceState) (sessionId : String) (m : LLMMessage) :
    isWaitingForTermsAcceptance (stateAddToConversationHistory st sessionId m) =
      isWaitingForTermsAcceptance st := rfl

theorem handleTerms_sessionId (env : TurnEnv) (st : ServiceState)
    (userMessage sessionId : String) (pendingOrder : PendingOrderOperation) :
    (handleTermsAcceptanceResponse env st userMessage sessionId pendingOrder).sessionId =
      sessionId := by
  unfold handleTermsAcceptanceResponse
  dsimp only
  split
  · split <;> rfl
  · rfl

theorem handleTerms_clears_interrupt (env : TurnEnv) (st : ServiceState)
    (userMessage sessionId : String) (pendingOrder : PendingOrderOperation) :
    isWaitingForTermsAcceptance
      (handleTermsAcceptanceResponse env st userMessage sessionId pendingOrder).state
      sessionId = false := by
  unfold handleTermsAcceptanceResponse
  dsimp only
  split
  · split
    · exact isWaiting_clearPending_self st sessionId
    · exact isWaiting_clearPending_self st sessionId
  · exact isWaiting_clearPending_self st sessionId

/-- After any turn, the processed session's terms interrupt is clear: the
normal path never arms it (its only writer, `setPendingOrderContext`, has no
call site) and the terms path always clears it. -/
theorem turn_leaves_interrupt_clear (env : TurnEnv) (st : ServiceState)
    (userMessage : String) (sessionIdArg : Option String) :
    isWaitingForTermsAcceptance (generateResponseWithSession env st userMessage sessionIdArg).state
      (generateResponseWithSession env st userMessage sessionIdArg).sessionId = false := by
  unfold generateResponseWithSession
  dsimp only
  split
  · rw [handleTerms_sessionId]
    apply handleTerms_clears_interrupt
  · rename_i heq
    split
    · dsimp only
      simp only [isWaiting_stateAdd]
      rw [isWaiting_initFlow_self, isWaiting_eq_isSome, heq]
      rfl
    · dsimp only
      simp only [isWaiting_stateAdd]
      rw [isWaiting_eq_isSome, heq]
      rfl

/-! ## Claim C3: history cap and system-message preservation -/

/-- C3: for every session, after any turn the persisted conversation history
has length at most 20; when trimming, a `system` message existing in the
pushed history still exists afterwards, and the most recent `cap − 1`
messages are kept as a suffix of the trimmed history. -/
theorem history_cap_and_system_preserved :
    (∀ (history : List LLMMessage) (message : LLMMessage),
        (addToConversationHistory history message).length ≤ MAX_CONVERSATION_LENGTH) ∧
    (∀ (history : List LLMMessage) (message : LLMMessage),
        (∃ m ∈ history ++ [message], m.role = Role.system) →
        ∃ m ∈ addToConversationHistory history message, m.role = Role.system) ∧
    (∀ (history : List LLMMessage) (message : LLMMessage),
        (history ++ [message]).length > MAX_CONVERSATION_LENGTH →
        ((history ++ [message]).drop
            ((history ++ [message]).length - (MAX_CONVERSATION_LENGTH - 1))).IsSuffix
          (addToConversationHistory history message)) ∧
    (∀ (env : TurnEnv) (st : ServiceState) (userMessage : String)
        (sessionIdArg : Option String), historiesBounded st →
        historiesBounded (generateResponseWithSession env st userMessage sessionIdArg).state) :=
  ⟨addToConversationHistory_length_le, addToConversationHistory_system_preserved,
   addToConversationHistory_recent_suffix, historiesBounded_turn⟩

/-- Witness for C3 at concrete inputs: a full history with a system message
at its head is trimmed to the cap with the system message surviving, and a
turn against the empty store keeps every history within the cap. -/
theorem history_cap_and_system_preserved_witness :
    (∃ m ∈ ({ role := Role.system, content := "sys" } : LLMMessage) ::
        (List.range 20).map (fun i => ({ role := Role.user, content := toString i } : LLMMessage)) ++
        [{ role := Role.user, content := "u" }], m.role = Role.system) ∧
    (∃ m ∈ addToConversationHistory
        (({ role := Role.system, content := "sys" } : LLMMessage) ::
          (List.range 20).map (fun i => ({ role := Role.user, content := toString i } : LLMMessage)))
        { role := Role.user, content := "u" }, m.role = Role.system) ∧
    historiesBounded (generateResponseWithSession exNoProviderEnv {} "hello" none).state := by
  refine ⟨⟨{ role := Role.system, content := "sys" }, by decide, rfl⟩, ?_, ?_⟩
  · exact history_cap_and_system_preserved.2.1 _ _
      ⟨{ role := Role.system, content := "sys" }, by decide, rfl⟩
  · exact history_cap_and_system_preserved.2.2.2 exNoProviderEnv {} "hello" none
      (fun kv hkv => absurd hkv (List.not_mem_nil kv))

/-! ## Claim C8: order-flow step monotonicity and clearing -/

/-- C8: the step-advance operation moves `currentStep` exactly one position
forward in the fixed sequence (payment to address, never skipping or
regressing), leaves `complete` unchanged, acts on the store only through that
one-step advance, and the order flow is cleared entirely by explicit cancel
and by session clear. -/
theorem order_step_monotone_and_cleared :
    advanceStep OrderStep.payment = OrderStep.address ∧
    advanceStep OrderStep.complete = OrderStep.complete ∧
    (∀ s : OrderStep, stepOrder.indexOf (advanceStep s) =
      min (stepOrder.indexOf s + 1) (stepOrder.length - 1)) ∧
    (∀ (st : ServiceState) (sessionId : String),
        (getSessionContext (advanceOrderStep st sessionId) sessionId).orderFlow =
          ((getSessionContext st sessionId).orderFlow).map
            (fun f => { f with currentStep := advanceStep f.currentStep })) ∧
    (∀ (st : ServiceState) (sessionId : String),
        (getSessionContext (cancelOrderFlow st sessionId) sessionId).orderFlow = none) ∧
    (∀ (st : ServiceState) (sessionId : String),
        (getSessionContext (clearConversationHistory st sessionId) sessionId).orderFlow = none ∧
        alistGet (clearConversationHistory st sessionId).conversationHistory sessionId = none) := by
  refine ⟨rfl, rfl, ?_, ?_, ?_, ?_⟩
  · intro s; cases s <;> rfl
  · intro st sessionId
    unfold advanceOrderStep
    dsimp only
    cases hf : (getSessionContext st sessionId).orderFlow with
    | none => simp [hf]
    | some flow =>
      simp only [hf]
      rw [getSessionContext_set_self]
      rfl
  · intro st sessionId
    unfold cancelOrderFlow clearOrderFlow
    rw [getSessionContext_set_self]
  · intro st sessionId
    constructor
    · unfold getSessionContext clearConversationHistory
      dsimp only
      rw [alistGet_delete_self]
      rfl
    · unfold clearConversationHistory
      dsimp only
      rw [alistGet_delete_self]

/-! ## Claim C9: the cleanup sweep -/

/-- C9 counterexample: a session expired for more than the 30-minute timeout
loses its conversation history in the sweep, yet its order-flow state is
still present in the session-context store afterwards — the sweep does not
destroy the session entirely, contradicting the claim. -/
theorem cleanup_leaves_session_context_counterexample :
    sessionExpired (31 * 60 * 1000) (getConversationHistory exExpiredState "s9") = true ∧
    alistGet (cleanupOldSessions (31 * 60 * 1000) exExpiredState).conversationHistory "s9" =
      none ∧
    (getSessionContext (cleanupOldSessions (31 * 60 * 1000) exExpiredState) "s9").orderFlow ≠
      none := by
  refine ⟨by decide, by decide, by decide⟩

/-- C9 amended: the sweep deletes exactly the conversation-history entries of
sessions whose last message timestamp is older than the 30-minute timeout;
the session-context store (order flow, pending terms interrupt) is untouched
by the sweep — only an explicit session clear removes it. -/
theorem cleanup_sweeps_only_history (now : Int) (st : ServiceState) (sessionId : String) :
    (cleanupOldSessions now st).sessionContext = st.sessionContext ∧
    ((cleanupOldSessions now st).conversationHistory.all
      fun kv => !sessionExpired now kv.2) = true ∧
    (cleanupOldSessions now st).conversationHistory =
      st.conversationHistory.filter (fun kv => !sessionExpired now kv.2) ∧
    alistGet (clearConversationHistory st sessionId).sessionContext sessionId = none := by
  refine ⟨rfl, ?_, rfl, ?_⟩
  · simp only [cleanupOldSessions, List.all_eq_true]
    intro kv hkv
    exact (List.mem_filter.mp hkv).2
  · unfold clearConversationHistory
    dsimp only
    rw [alistGet_delete_self]

/-! ## Claim C1: the terms-error detection never arms the interrupt -/

/-- C1 (code bug): in the terms-error scenario the detection pattern fires on
the `place-order` error result, yet after the turn the session's pending
interrupt is not set — `executeMCPTool` only logs the detection (it has no
session id) and `setPendingOrderContext` has no call site, so universally no
turn ever leaves the processed session with `waitingForAcceptance = true`. -/
theorem terms_error_never_sets_interrupt :
    termsConditionsErrorDetected "place-order" exTermsResult = true ∧
    executeMCPTool exTermsToolEnv
      { id := "call_1", function := { name := "mcp_place-order", arguments := some [] } } =
      .ok exTermsResult ∧
    (generateResponseWithSession exTermsEnv exLocalState "please place my order"
      (some "s1")).response = "final answer" ∧
    isWaitingForTermsAcceptance
      (generateResponseWithSession exTermsEnv exLocalState "please place my order"
        (some "s1")).state "s1" = false ∧
    (getSessionContext
      (generateResponseWithSession exTermsEnv exLocalState "please place my order"
        (some "s1")).state "s1").pendingOrderOperation = none ∧
    (∀ (env : TurnEnv) (st : ServiceState) (userMessage : String)
        (sessionIdArg : Option String),
      isWaitingForTermsAcceptance
        (generateResponseWithSession env st userMessage sessionIdArg).state
        (generateResponseWithSession env st userMessage sessionIdArg).sessionId = false) := by
  refine ⟨rfl, rfl, rfl, rfl, rfl, turn_leaves_interrupt_clear⟩

/-! ## Claim C2: the terms-acceptance turn -/

theorem handleTerms_providerCalls (env : TurnEnv) (st : ServiceState)
    (userMessage sessionId : String) (pendingOrder : PendingOrderOperation) :
    (handleTermsAcceptanceResponse env st userMessage sessionId pendingOrder).providerCalls =
      [] := by
  unfold handleTermsAcceptanceResponse
  dsimp only
  split
  · split <;> rfl
  · rfl

theorem handleTerms_response_accept (env : TurnEnv) (st : ServiceState)
    (userMessage sessionId : String) (pendingOrder : PendingOrderOperation)
    (h : termsAccepted userMessage = true) :
    (handleTermsAcceptanceResponse env st userMessage sessionId pendingOrder).response =
      match executeMCPTool env.tool (retryWithTermsChecked pendingOrder.originalToolCall) with
      | .ok r => "Thank you for accepting the terms and conditions. " ++ formatToolResult r
      | .error e =>
        "I've processed your acceptance of the terms, but encountered an error while placing the order: " ++ e := by
  unfold handleTermsAcceptanceResponse
  simp only [h, if_true]
  split <;> rfl

theorem handleTerms_response_decline (env : TurnEnv) (st : ServiceState)
    (userMessage sessionId : String) (pendingOrder : PendingOrderOperation)
    (h : termsAccepted userMessage = false) :
    (handleTermsAcceptanceResponse env st userMessage sessionId pendingOrder).response =
      "I understand you don't wish to accept the terms and conditions. Unfortunately, I cannot proceed with placing the order without your acceptance of the terms. Is there anything else I can help you with?" := by
  unfold handleTermsAcceptanceResponse
  simp only [h, Bool.false_eq_true, if_false]

/-- C2: while a session waits for terms acceptance, the next turn is diverted
into the handler; the utterance is classified by the accept tokens; on accept
the stored call is re-invoked with `termsChecked: true` added to its parsed
arguments and the formatted result is returned with no provider round-trip;
on decline the fixed refusal is returned; in both branches the interrupt is
cleared. -/
theorem terms_acceptance_turn (env : TurnEnv) (st : ServiceState)
    (userMessage sessionId : String) (pendingOrder : PendingOrderOperation)
    (hsid : sessionId.isEmpty = false)
    (hw : pendingWaitingOperation st sessionId = some pendingOrder) :
    generateResponseWithSession env st userMessage (some sessionId) =
      handleTermsAcceptanceResponse env st userMessage sessionId pendingOrder ∧
    isWaitingForTermsAcceptance
      (generateResponseWithSession env st userMessage (some sessionId)).state sessionId =
      false ∧
    (generateResponseWithSession env st userMessage (some sessionId)).providerCalls = [] ∧
    (termsAccepted userMessage = true →
      (generateResponseWithSession env st userMessage (some sessionId)).response =
        match executeMCPTool env.tool
            (retryWithTermsChecked pendingOrder.originalToolCall) with
        | .ok r => "Thank you for accepting the terms and conditions. " ++ formatToolResult r
        | .error e =>
          "I've processed your acceptance of the terms, but encountered an error while placing the order: " ++ e) ∧
    (termsAccepted userMessage = false →
      (generateResponseWithSession env st userMessage (some sessionId)).response =
        "I understand you don't wish to accept the terms and conditions. Unfortunately, I cannot proceed with placing the order without your acceptance of the terms. Is there anything else I can help you with?") := by
  have hroute : generateResponseWithSession env st userMessage (some sessionId) =
      handleTermsAcceptanceResponse env st userMessage sessionId pendingOrder := by
    unfold generateResponseWithSession
    simp only [hsid, Bool.false_eq_true, if_false]
    rw [hw]
  refine ⟨hroute, ?_, ?_, ?_, ?_⟩
  · rw [hroute]
    exact handleTerms_clears_interrupt env st userMessage sessionId pendingOrder
  · rw [hroute]
    exact handleTerms_providerCalls env st userMessage sessionId pendingOrder
  · intro h
    rw [hroute]
    exact handleTerms_response_accept env st userMessage sessionId pendingOrder h
  · intro h
    rw [hroute]
    exact handleTerms_response_decline env st userMessage sessionId pendingOrder h

/-- Witness for C2: session `s2` of the retry scenario answers `yes`, the
stored `place-order` call is retried with `termsChecked: true` (the oracle
accepts exactly those arguments), the formatted result is returned with no
provider call, and the interrupt is cleared; a decline utterance gets the
fixed refusal. -/
theorem terms_acceptance_turn_witness :
    (generateResponseWithSession exRetryEnv exWaitingState "yes" (some "s2")).response =
      "Thank you for accepting the terms and conditions. ✅ Tool Result:\norder placed" ∧
    isWaitingForTermsAcceptance
      (generateResponseWithSession exRetryEnv exWaitingState "yes" (some "s2")).state "s2" =
      false ∧
    (generateResponseWithSession exRetryEnv exWaitingState "yes" (some "s2")).providerCalls =
      [] ∧
    (generateResponseWithSession exRetryEnv exWaitingState "no thanks" (some "s2")).response =
      "I understand you don't wish to accept the terms and conditions. Unfortunately, I cannot proceed with placing the order without your acceptance of the terms. Is there anything else I can help you with?" := by
  have hy := terms_acceptance_turn exRetryEnv exWaitingState "yes" "s2" exPendingOrder rfl rfl
  have hn := terms_acceptance_turn exRetryEnv exWaitingState "no thanks" "s2" exPendingOrder
    rfl rfl
  refine ⟨?_, hy.2.1, hy.2.2.1, hn.2.2.2.2 (by decide)⟩
  rw [hy.2.2.2.1 (by decide)]
  rfl

/-! ## Claim C4: availability cache and probe deduplication -/

/-- C4 (code bug): a fresh cache entry answers without a probe (so at most
one probe is issued inside the TTL), but a caller arriving while a probe is
in flight hits the fresh-cache branch first and is served the stored
"Temporary value" `false` — not the pending probe's result, which the first
caller observes when the probe settles (`true` in the scenario). -/
theorem availability_cache_serves_placeholder :
    (∀ (c : CacheEntry) (now : Int) (providerRegistered : Bool) (freshId : Nat),
        now - c.lastCheck < CACHE_DURATION →
        checkProviderAvailabilityWithCache (some c) now providerRegistered freshId =
          (.cachedValue c.available, some c)) ∧
    (checkProviderAvailabilityWithCache none 0 true 7).1 = .newProbe 7 ∧
    (checkProviderAvailabilityWithCache none 0 true 7).2 =
      some { available := false, lastCheck := 0, observable := some 7 } ∧
    (checkProviderAvailabilityWithCache
      (checkProviderAvailabilityWithCache none 0 true 7).2 1000 true 8).1 =
      .cachedValue false ∧
    completeAvailabilityProbe true 1500 =
      some { available := true, lastCheck := 1500, observable := none } := by
  refine ⟨?_, by decide, by decide, by decide, by decide⟩
  intro c now providerRegistered freshId h
  unfold checkProviderAvailabilityWithCache
  dsimp only
  rw [if_pos h]

/-- Witness for C4: the fresh-cache branch applied to the in-flight placeholder
entry at one second after the probe began. -/
theorem availability_cache_serves_placeholder_witness :
    checkProviderAvailabilityWithCache
      (some { available := false, lastCheck := 0, observable := some 7 }) 1000 true 8 =
      (.cachedValue false, some { available := false, lastCheck := 0, observable := some 7 }) :=
  availability_cache_serves_placeholder.1
    { available := false, lastCheck := 0, observable := some 7 } 1000 true 8 (by decide)

/-! ## Claim C5: the rule-based responder is total and a session id is returned -/

theorem strLength_append (a b : String) : (a ++ b).length = a.length + b.length := by
  show (a ++ b).data.length = a.data.length + b.data.length
  rw [String.data_append, List.length_append]

theorem length_append_pos_left (a b : String) (h : 0 < a.length) :
    0 < (a ++ b).length := by
  rw [strLength_append]; omega

theorem ne_empty_of_length_pos (s : String) (h : 0 < s.length) : s ≠ "" := by
  intro he
  rw [he] at h
  exact absurd h (by decide)

theorem generateSessionId_ne_empty (now : Int) (rnd : String) :
    generateSessionId now rnd ≠ "" := by
  apply ne_empty_of_length_pos
  unfold generateSessionId
  apply length_append_pos_left
  apply length_append_pos_left
  apply length_append_pos_left
  decide

theorem turn_sessionId (env : TurnEnv) (st : ServiceState) (userMessage : String)
    (sessionIdArg : Option String) :
    (generateResponseWithSession env st userMessage sessionIdArg).sessionId =
      match sessionIdArg with
      | none => generateSessionId env.now env.rnd
      | some s => if s.isEmpty = true then generateSessionId env.now env.rnd else s := by
  unfold generateResponseWithSession
  dsimp only
  split
  · exact handleTerms_sessionId _ _ _ _ _
  · split <;> rfl

theorem generateResponse_fallback (env : TurnEnv) (st : ServiceState)
    (userMessage : String) (conversationHistory : List LLMMessage)
    (hp : st.currentProvider = LLMProviderType.fallback) :
    generateResponse env st userMessage conversationHistory =
      (getFallbackResponse userMessage none, []) := by
  unfold generateResponse
  cases hc : st.config with
  | none => rfl
  | some config => rw [hp]; simp

set_option maxRecDepth 4096 in
/-- C5: the rule-based responder is a total function yielding a non-empty
answer for every utterance (with and without an error context), `hello`
yields the greeting containing a recognizable greeting phrase, every turn
returns a non-empty session id, and with the fallback provider active the
turn's answer is exactly the rule-based response. -/
theorem fallback_responder_total :
    (∀ userMessage : String, 0 < (getFallbackResponse userMessage none).length) ∧
    (∀ userMessage e : String, 0 < (getFallbackResponse userMessage (some e)).length) ∧
    (∀ userMessage : String, strContains (strToLower userMessage) "hello" = true →
      getFallbackResponse userMessage none =
        "Hello! Welcome to Gallo Connect. I'm here to help you with any questions about our products, orders, or services. How can I assist you today?") ∧
    strContains (getFallbackResponse "hello" none) "Hello" = true ∧
    (∀ (env : TurnEnv) (st : ServiceState) (userMessage : String)
        (sessionIdArg : Option String),
      (generateResponseWithSession env st userMessage sessionIdArg).sessionId ≠ "") ∧
    (∀ (env : TurnEnv) (st : ServiceState) (userMessage s : String),
      s.isEmpty = false →
      pendingWaitingOperation st s = none →
      st.currentProvider = LLMProviderType.fallback →
      (generateResponseWithSession env st userMessage (some s)).response =
        getFallbackResponse userMessage none ∧
      (generateResponseWithSession env st userMessage (some s)).sessionId = s) := by
  refine ⟨?_, ?_, ?_, by decide, ?_, ?_⟩
  · intro userMessage
    unfold getFallbackResponse
    dsimp only
    repeat' split
    all_goals decide
  · intro userMessage e
    unfold getFallbackResponse
    dsimp only
    apply length_append_pos_left
    apply length_append_pos_left
    decide
  · intro userMessage h
    unfold getFallbackResponse
    simp only [h, Bool.true_or, if_true]
  · intro env st userMessage sessionIdArg
    rw [turn_sessionId]
    cases sessionIdArg with
    | none => exact generateSessionId_ne_empty _ _
    | some s =>
      dsimp only
      split
      · exact generateSessionId_ne_empty _ _
      · rename_i hne
        intro he
        rw [he] at hne
        exact hne rfl
  · intro env st userMessage s hs hw hp
    unfold generateResponseWithSession
    simp only [hs, Bool.false_eq_true, if_false]
    rw [hw]
    dsimp only
    split
    · have hp2 : (stateAddToConversationHistory (initializeOrderFlow st s) s
          { role := Role.user, content := userMessage,
            timestamp := some env.now }).currentProvider = LLMProviderType.fallback := hp
      rw [generateResponse_fallback _ _ _ _ hp2]
      exact ⟨rfl, rfl⟩
    · have hp2 : (stateAddToConversationHistory st s
          { role := Role.user, content := userMessage,
            timestamp := some env.now }).currentProvider = LLMProviderType.fallback := hp
      rw [generateResponse_fallback _ _ _ _ hp2]
      exact ⟨rfl, rfl⟩

/-- Witness for C5 (scenario A): `hello` with no provider available gets the
greeting and a freshly generated session id. -/
theorem fallback_responder_total_witness :
    (generateResponseWithSession exNoProviderEnv exFallbackState "hello" (some "sA")).response =
      "Hello! Welcome to Gallo Connect. I'm here to help you with any questions about our products, orders, or services. How can I assist you today?" ∧
    (generateResponseWithSession exNoProviderEnv exFallbackState "hello" (some "sA")).sessionId =
      "sA" ∧
    (generateResponseWithSession exNoProviderEnv exFallbackState "hello" none).sessionId ≠
      "" := by
  have h := fallback_responder_total.2.2.2.2.2 exNoProviderEnv exFallbackState "hello" "sA"
    rfl rfl rfl
  refine ⟨?_, h.2,
    fallback_responder_total.2.2.2.2.1 exNoProviderEnv exFallbackState "hello" none⟩
  rw [h.1]
  exact fallback_responder_total.2.2.1 "hello" (by decide)

/-! ## Claim C6: tool-call batch execution and the single follow-up round -/

/-- C6: every tool call of a batch contributes exactly one tool-result
message (a per-call error becomes the synthetic error message instead of
aborting the batch); the assistant tool-call message and all results are
appended; exactly one follow-up provider call is made, with no tool
definitions, and its content is returned as-is — even a follow-up response
carrying `tool_calls` triggers no second round. -/
theorem tool_batch_and_single_followup (env : TurnEnv)
    (currentProvider : LLMProviderType) (toolCalls : List LLMToolCall)
    (messages : List LLMMessage) (originalResponse : LLMResponse)
    (provider : ProviderOracle)
    (hp : env.providers currentProvider = some provider) :
    ((executeToolCalls env currentProvider toolCalls messages
        originalResponse).toolResultMessages =
      toolCalls.map (toolResultMessage env.tool env.now)) ∧
    (toolCalls.map (toolResultMessage env.tool env.now)).length = toolCalls.length ∧
    (∀ (toolCall : LLMToolCall) (e : String),
        executeMCPTool env.tool toolCall = .error e →
        toolResultMessage env.tool env.now toolCall =
          { role := Role.tool,
            content := "Error executing tool " ++ toolCall.function.name ++ ": " ++ e,
            tool_call_id := some toolCall.id, timestamp := some env.now }) ∧
    ((executeToolCalls env currentProvider toolCalls messages
        originalResponse).followupInputs =
      [(messages ++ [assistantToolCallMessage env.now originalResponse toolCalls]) ++
        toolCalls.map (toolResultMessage env.tool env.now)]) ∧
    (∀ r : LLMResponse,
        provider.respond
          ((messages ++ [assistantToolCallMessage env.now originalResponse toolCalls]) ++
            toolCalls.map (toolResultMessage env.tool env.now)) none = .ok r →
        (executeToolCalls env currentProvider toolCalls messages originalResponse).text =
          r.content) ∧
    (∀ e : String,
        provider.respond
          ((messages ++ [assistantToolCallMessage env.now originalResponse toolCalls]) ++
            toolCalls.map (toolResultMessage env.tool env.now)) none = .error e →
        (executeToolCalls env currentProvider toolCalls messages originalResponse).text =
          "Tools executed successfully, but follow-up response failed: " ++ e) := by
  unfold executeToolCalls
  dsimp only
  rw [hp]
  dsimp only
  refine ⟨?_, List.length_map _ _, ?_, ?_, ?_, ?_⟩
  · split <;> rfl
  · intro toolCall e he
    unfold toolResultMessage
    rw [he]
  · split <;> rfl
  · intro r hr
    rw [hr]
  · intro e he
    rw [he]

/-- Witness for C6 (scenario D): two tool calls both fail at the transport
level; both synthetic error messages are produced, and the single follow-up
call still proceeds and yields the provider's summary. -/
theorem tool_batch_and_single_followup_witness :
    (executeToolCalls exNetworkErrorEnv .local exTwoToolCalls [] { content := "" }).toolResultMessages =
      [{ role := Role.tool, content := "Error executing tool mcp_product-search: Network error",
         tool_call_id := some "t1", timestamp := some 5 },
       { role := Role.tool, content := "Error executing tool mcp_get-cart: Network error",
         tool_call_id := some "t2", timestamp := some 5 }] ∧
    (executeToolCalls exNetworkErrorEnv .local exTwoToolCalls [] { content := "" }).text =
      "summary of tool results" ∧
    (executeToolCalls exNetworkErrorEnv .local exTwoToolCalls []
      { content := "" }).followupInputs.length = 1 := by
  have h := tool_batch_and_single_followup exNetworkErrorEnv .local exTwoToolCalls []
    { content := "" } exSummaryProvider rfl
  refine ⟨?_, h.2.2.2.2.1 { content := "summary of tool results" } rfl, ?_⟩
  · rw [h.1]
    rfl
  · rw [h.2.2.2.1]
    rfl

/-! ## Claim C10: the `mcp_` tool-name round trip -/

/-- C10: every discovered tool is exposed under `mcp_` plus its name;
execution strips exactly that marker, so the dispatched name round-trips to
the discovered name (with the enriched arguments passed through); a tool
call whose function name lacks the marker is rejected with an error for
every possible tool oracle — it is never dispatched — and that error
surfaces as the synthetic error tool-result message. -/
theorem mcp_tool_name_roundtrip :
    (∀ tools : List MCPTool, (getToolsForLLM tools).map FunctionDef.name =
        tools.map (fun t => mcpNameMarker ++ t.name)) ∧
    (∀ n : String, strStartsWith (mcpNameMarker ++ n) mcpNameMarker = true ∧
        strDrop (mcpNameMarker ++ n) mcpNameMarker.length = n) ∧
    (∀ (env : ToolEnv) (tc : LLMToolCall) (n : String),
        tc.function.name = mcpNameMarker ++ n →
        ensureMCPConnection env = true →
        executeMCPTool env tc = env.callTool n
          (match env.baseSite with
           | some site => objSet (tc.function.arguments.getD []) "baseSiteId" (JsonVal.str site)
           | none => tc.function.arguments.getD [])) ∧
    (∀ (env : ToolEnv) (tc : LLMToolCall) (now : Int),
        strStartsWith tc.function.name mcpNameMarker = false →
        executeMCPTool env tc =
          .error ("Invalid MCP function name: " ++ tc.function.name) ∧
        toolResultMessage env now tc =
          { role := Role.tool,
            content := "Error executing tool " ++ tc.function.name ++ ": " ++
              ("Invalid MCP function name: " ++ tc.function.name),
            tool_call_id := some tc.id, timestamp := some now }) := by
  refine ⟨?_, ?_, ?_, ?_⟩
  · intro tools
    unfold getToolsForLLM
    rw [List.map_map]
    rfl
  · intro n
    exact ⟨strStartsWith_append _ _, strDrop_append _ _⟩
  · intro env tc n hname hens
    unfold executeMCPTool
    simp only [hname, strStartsWith_append, Bool.not_true, Bool.false_eq_true, if_false,
      strDrop_append, hens, Bool.not_false, if_true]
  · intro env tc now hmark
    have herr : executeMCPTool env tc =
        .error ("Invalid MCP function name: " ++ tc.function.name) := by
      unfold executeMCPTool
      simp only [hmark, Bool.not_false, if_true]
    refine ⟨herr, ?_⟩
    unfold toolResultMessage
    rw [herr]

/-- Witness for C10: the exposed name `mcp_place-order` dispatches to
`place-order` with the enriched arguments, and an unmarked name is rejected
without reaching the tool oracle. -/
theorem mcp_tool_name_roundtrip_witness :
    executeMCPTool exTermsToolEnv
        { id := "w1", function := { name := "mcp_place-order", arguments := some [] } } =
      exTermsToolEnv.callTool "place-order"
        (objSet [] "baseSiteId" (JsonVal.str "galloB2B")) ∧
    executeMCPTool exTermsToolEnv
        { id := "w2", function := { name := "place-order", arguments := some [] } } =
      .error "Invalid MCP function name: place-order" := by
  constructor
  · have h := mcp_tool_name_roundtrip.2.2.1 exTermsToolEnv
      { id := "w1", function := { name := "mcp_place-order", arguments := some [] } }
      "place-order" (by decide) rfl
    rw [h]
    rfl
  · have h := (mcp_tool_name_roundtrip.2.2.2 exTermsToolEnv
      { id := "w2", function := { name := "place-order", arguments := some [] } }
      0 (by decide)).1
    rw [h]
    rfl

/-! ## Claim C7: tool surfacing per provider adapter -/

set_option maxRecDepth 4096 in
/-- C7 counterexample: the Gemini adapter, whose backend path here has no
native function calling, does not serialize tools into its prompt either —
with a non-empty tool list it builds exactly the request it builds with no
tools, and no text part of the request mentions the tool's name. -/
theorem gemini_drops_tools_counterexample :
    geminiGenerateRequest [{ role := Role.user, content := "hi" }]
        [{ name := "mcp_product-search", description := "Search products" }] =
      geminiGenerateRequest [{ role := Role.user, content := "hi" }] [] ∧
    ((geminiGenerateRequest [{ role := Role.user, content := "hi" }]
        [{ name := "mcp_product-search", description := "Search products" }]).contents.all
      (fun c => c.parts.all (fun part => !strContains part "mcp_product-search"))) = true := by
  exact ⟨rfl, by decide⟩

theorem infix_ollamaToolsInfo (tools : List FunctionDef) (t : FunctionDef)
    (ht : t ∈ tools) :
    t.name.data <:+: (ollamaToolsInfo tools).data ∧
    t.description.data <:+: (ollamaToolsInfo tools).data := by
  have hline := infix_joinSep "\n"
    (tools.map (fun tool => "- " ++ tool.name ++ ": " ++ tool.description))
    ("- " ++ t.name ++ ": " ++ t.description)
    (List.mem_map_of_mem _ ht)
  constructor
  · refine List.IsInfix.trans ?_ hline
    rw [String.data_append, String.data_append, String.data_append]
    exact ((List.suffix_append _ _).isInfix.trans
      (List.prefix_append _ _).isInfix).trans (List.prefix_append _ _).isInfix
  · refine List.IsInfix.trans ?_ hline
    rw [String.data_append]
    exact (List.suffix_append _ _).isInfix

/-- C7 amended: the OpenAI-compatible local path passes a non-empty tool
list structurally (with `tool_choice: auto`) and omits the fields otherwise;
the Ollama path serializes every tool's name and description into the prompt
text; the Gemini adapter surfaces tools in no form at all — its request is
the same function of the messages whatever the tool list. -/
theorem adapter_tool_surfacing :
    (∀ (messages : List LLMMessage) (tools : List FunctionDef), tools ≠ [] →
        (generateOpenAICompatibleRequest messages tools).tools = some tools ∧
        (generateOpenAICompatibleRequest messages tools).tool_choice = some "auto") ∧
    (∀ messages : List LLMMessage,
        (generateOpenAICompatibleRequest messages []).tools = none ∧
        (generateOpenAICompatibleRequest messages []).tool_choice = none) ∧
    (∀ (messages : List LLMMessage) (tools : List FunctionDef) (t : FunctionDef),
        t ∈ tools →
        strContains (generateOllamaRequest messages tools).prompt t.name = true ∧
        strContains (generateOllamaRequest messages tools).prompt t.description = true) ∧
    (∀ messages : List LLMMessage,
        (generateOllamaRequest messages []).prompt = convertMessagesToPrompt messages) ∧
    (∀ (messages : List LLMMessage) (tools : List FunctionDef),
        geminiGenerateRequest messages tools = geminiGenerateRequest messages []) := by
  refine ⟨?_, fun messages => ⟨rfl, rfl⟩, ?_, fun messages => rfl, fun messages tools => rfl⟩
  · intro messages tools h
    have hlen : tools.length > 0 := List.length_pos.mpr h
    unfold generateOpenAICompatibleRequest
    dsimp only
    rw [if_pos hlen]
    exact ⟨rfl, rfl⟩
  · intro messages tools t ht
    have hlen : tools.length > 0 := List.length_pos.mpr (List.ne_nil_of_mem ht)
    unfold generateOllamaRequest
    dsimp only
    rw [if_pos hlen]
    have hinfo := infix_ollamaToolsInfo tools t ht
    constructor
    · rw [strContains_iff, String.data_append, String.data_append, String.data_append]
      exact (hinfo.1.trans (List.suffix_append _ _).isInfix).trans
        (List.prefix_append _ _).isInfix
    · rw [strContains_iff, String.data_append, String.data_append, String.data_append]
      exact (hinfo.2.trans (List.suffix_append _ _).isInfix).trans
        (List.prefix_append _ _).isInfix

/-- Witness for C7 (amended): one concrete tool is passed structurally by the
OpenAI-compatible path and appears in the Ollama prompt text. -/
theorem adapter_tool_surfacing_witness :
    (generateOpenAICompatibleRequest []
        [{ name := "mcp_product-search", description := "Search products" }]).tools =
      some [{ name := "mcp_product-search", description := "Search products" }] ∧
    strContains
      (generateOllamaRequest []
        [{ name := "mcp_product-search", description := "Search products" }]).prompt
      "mcp_product-search" = true := by
  exact ⟨(adapter_tool_surfacing.1 [] _ (by decide)).1,
    (adapter_tool_surfacing.2.2.1 [] _
      { name := "mcp_product-search", description := "Search products" } (by decide)).1⟩

end GalloConnect
